import Mathlib

/-!
Shallow embedding of the session-state coordination core of the
SpeechToText React application (`src/src/App.js`, and the earlier
variant `src/unnamed/part_000` which contains the same core logic).

The embedding models:
  * the main component's React state (`isListening`, `text`,
    `interimText`, `error`, `copied`, `darkMode`, `language`) together
    with the persistent `recognitionRef` and counters for the external
    `recognition.start()` / `recognition.stop()` requests issued;
  * the recognition event handlers `onstart`, `onend`, `onerror`,
    `onresult` installed by `initializeRecognition`;
  * the user-command handlers `startListening`, `stopListening`,
    `handleClear`, and the `setLanguage` state setter;
  * the `MicrophoneVisualizer` component's refs
    (`audioContextRef`, `analyserRef`, `dataArrayRef`,
    `animationIdRef`, `streamRef`) and its `startVisualizer` /
    `stopVisualizer` / `draw` functions, including the resumption of
    `startVisualizer` after the asynchronous `getUserMedia` promise
    settles (granted or denied).
-/

namespace STT

/-- One recognition result as consumed by the `onresult` handler: the code
reads `event.results[i].isFinal` and `event.results[i][0].transcript`, so a
result is modelled by its `isFinal` flag and the transcript of its first
alternative. -/
structure SpeechResult where
  isFinal : Bool
  transcript : String
  deriving DecidableEq, Repr

/-- A recognition result event: `event.resultIndex` and the full list
`event.results` (indices `0 .. results.length - 1`). -/
structure ResultEvent where
  resultIndex : Nat
  results : List SpeechResult
  deriving DecidableEq, Repr

/-- The external recognition handle as configured by
`initializeRecognition`: `recognition.continuous = true`,
`recognition.interimResults = true`, `recognition.lang = language`. -/
structure RecognitionHandle where
  continuous : Bool
  interimResults : Bool
  lang : String
  deriving DecidableEq, Repr

/-- The main component's state: the seven `useState` values, the
persistent `recognitionRef` (`useRef(null)`), and two counters recording
how many `recognitionRef.current.start()` / `.stop()` requests have been
issued to the external engine (external effects, tracked so that frame
conditions about them can be stated). -/
structure AppState where
  isListening : Bool
  text : String
  interimText : String
  error : String
  copied : Bool
  darkMode : Bool
  language : String
  recognitionRef : Option RecognitionHandle
  engineStarts : Nat
  engineStops : Nat
  deriving DecidableEq, Repr

/-- The initial state from the `useState` initializers:
`useState(false)`, `useState("")`, ..., `useState("en-US")`, and
`useRef(null)`. -/
def initState : AppState :=
  { isListening := false
    text := ""
    interimText := ""
    error := ""
    copied := false
    darkMode := false
    language := "en-US"
    recognitionRef := none
    engineStarts := 0
    engineStops := 0 }

/-- The `recognition.onstart` handler: `setIsListening(true); setError("")`. -/
def onstart (st : AppState) : AppState :=
  { st with isListening := true, error := "" }

/-- The `recognition.onend` handler: `setIsListening(false)`. -/
def onend (st : AppState) : AppState :=
  { st with isListening := false }

/-- The `recognition.onerror` handler:
`setError(\x7bError occurred: $\x7bevent.error\x7d. ... \x7d)`. -/
def onerror (errCode : String) (st : AppState) : AppState :=
  { st with error :=
      "Error occurred: " ++ errCode ++ ". \n           Please check your microphone permissions." }

/-- The `for` loop body of the `onresult` handler, folded over the
results from `event.resultIndex` onward, starting from
`finalTranscript = ""` and `interimTranscript = ""`: a final result's
transcript is appended to the first component, a non-final result's
transcript to the second. -/
def onresultFold (rs : List SpeechResult) : String × String :=
  rs.foldl
    (fun acc r =>
      if r.isFinal then (acc.1 ++ r.transcript, acc.2)
      else (acc.1, acc.2 ++ r.transcript))
    ("", "")

/-- The `recognition.onresult` handler: iterate `i` from
`event.resultIndex` to `event.results.length - 1` (modelled by
`results.drop resultIndex`), accumulate final and interim transcripts,
then `setText(prev => prev + finalTranscript)` and
`setInterimText(interimTranscript)`. -/
def onresult (e : ResultEvent) (st : AppState) : AppState :=
  let acc := onresultFold (e.results.drop e.resultIndex)
  { st with text := st.text ++ acc.1, interimText := acc.2 }

/-- The `initializeRecognition` callback. If `recognitionRef.current`
is non-null it does nothing. Otherwise, if the host has no
`SpeechRecognition`/`webkitSpeechRecognition` capability (`supported =
false`) it sets the unsupported-platform error and returns; if the
capability exists it creates the handle with `continuous = true`,
`interimResults = true`, `lang = language` and stores it in
`recognitionRef`. (Installing the four event handlers on the handle is
modelled by the `onstart`/`onend`/`onerror`/`onresult` functions above.) -/
def initializeRecognition (supported : Bool) (st : AppState) : AppState :=
  match st.recognitionRef with
  | some _ => st
  | none =>
      if supported then
        let recognition : RecognitionHandle :=
          { continuous := true, interimResults := true, lang := st.language }
        { st with recognitionRef := some recognition }
      else
        { st with error := "Your browser does not support Speech Recognition." }

/-- The `startListening` callback: call `initializeRecognition()`, then
if `recognitionRef.current` is non-null issue `recognition.start()`
(tracked by the `engineStarts` counter). -/
def startListening (supported : Bool) (st : AppState) : AppState :=
  let st1 := initializeRecognition supported st
  match st1.recognitionRef with
  | some _ => { st1 with engineStarts := st1.engineStarts + 1 }
  | none => st1

/-- The `stopListening` callback: if `recognitionRef.current` is
non-null issue `recognition.stop()` (tracked by `engineStops`); then
`setIsListening(false); setInterimText("")`. The handle itself is not
cleared: `recognitionRef.current` keeps its value. -/
def stopListening (st : AppState) : AppState :=
  let st1 :=
    match st.recognitionRef with
    | some _ => { st with engineStops := st.engineStops + 1 }
    | none => st
  { st1 with isListening := false, interimText := "" }

/-- The `handleClear` callback: `setText(""); setInterimText(""); setError("")`. -/
def handleClear (st : AppState) : AppState :=
  { st with text := "", interimText := "", error := "" }

/-- The `setLanguage` state setter (wired to the language selector's
`onChangeLanguage`). -/
def setLanguage (tag : String) (st : AppState) : AppState :=
  { st with language := tag }

/-- An atomic event on the single-threaded event loop: a user command
(`start`, `stop`, `clear`, `setLang`) or a recognition-engine callback
(`evStart`, `evEnd`, `evError`, `evResult`). -/
inductive Action where
  | start : Action
  | stop : Action
  | clear : Action
  | setLang : String → Action
  | evStart : Action
  | evEnd : Action
  | evError : String → Action
  | evResult : ResultEvent → Action
  deriving DecidableEq, Repr

/-- One step of the event loop: dispatch an action to its handler.
`supported` records whether the host exposes a recognition capability
(fixed for the page's lifetime). -/
def step (supported : Bool) (st : AppState) : Action → AppState
  | Action.start => startListening supported st
  | Action.stop => stopListening st
  | Action.clear => handleClear st
  | Action.setLang tag => setLanguage tag st
  | Action.evStart => onstart st
  | Action.evEnd => onend st
  | Action.evError c => onerror c st
  | Action.evResult e => onresult e st

/-- Run a sequence of actions from a state. -/
def run (supported : Bool) (st : AppState) (acts : List Action) : AppState :=
  acts.foldl (step supported) st

/-- The recognition-engine dictate carried by an action: `onstart`
dictates a listening flag of `true`, `onend` a flag of `false`; other
actions carry no engine dictate. -/
def listenDictate : Action → Option Bool
  | Action.evStart => some true
  | Action.evEnd => some false
  | _ => none

/-- What the last `onStart`/`onEnd` event observed in a trace dictates
for the listening flag (`none` when the trace contains neither). -/
def lastListenDictate (acts : List Action) : Option Bool :=
  (acts.filterMap listenDictate).getLast?

/-!
The `MicrophoneVisualizer` component. Its refs are
`audioContextRef`, `analyserRef` (with `fftSize`), `dataArrayRef`,
`animationIdRef` and `streamRef`; `canvasRef` is bound while the
component is mounted. Granted media streams are identified by a `Nat`
id; the component world additionally records which streams have had
all their tracks stopped, so that "no live stream leaks" is statable.
-/

/-- The ref cells of the `MicrophoneVisualizer` component. -/
structure VisState where
  audioContextCreated : Bool
  analyserCreated : Bool
  fftSize : Nat
  dataArraySet : Bool
  animationId : Option Nat
  streamRef : Option Nat
  canvasMounted : Bool
  deriving DecidableEq, Repr

/-- The visualizer together with the media streams whose tracks were
stopped via `track.stop()`. A granted stream `s` is still live (its
tracks running) unless `s ∈ stoppedStreams`. -/
structure VisWorld where
  vis : VisState
  stoppedStreams : List Nat
  deriving DecidableEq, Repr

/-- The visualizer's initial world: all refs null, canvas mounted. -/
def initVisWorld : VisWorld :=
  { vis :=
      { audioContextCreated := false
        analyserCreated := false
        fftSize := 0
        dataArraySet := false
        animationId := none
        streamRef := none
        canvasMounted := true }
    stoppedStreams := [] }

/-- The `draw` function: if `canvasRef.current`, `analyserRef.current`
or `dataArrayRef.current` is null it returns without scheduling;
otherwise it calls `requestAnimationFrame(draw)` and stores the new
frame id in `animationIdRef` (the canvas rendering itself is an
external effect with no component-state change). -/
def draw (newId : Nat) (v : VisState) : VisState :=
  if !v.canvasMounted || !v.analyserCreated || !v.dataArraySet then v
  else { v with animationId := some newId }

/-- The resumption of `startVisualizer` after `getUserMedia` resolves
with a granted stream `s`: store the stream in `streamRef`, create the
`AudioContext` and the analyser (with `fftSize = 256`) if not already
created, connect the stream source to the analyser (external effect),
allocate the data array, and call `draw` (which schedules frame
`newId`). Note there is no cancellation check anywhere on this path. -/
def startVisualizerResume (s : Nat) (newId : Nat) (w : VisWorld) : VisWorld :=
  let v0 := { w.vis with streamRef := some s }
  let v1 := if v0.audioContextCreated then v0 else { v0 with audioContextCreated := true }
  let v2 := if v1.analyserCreated then v1 else { v1 with analyserCreated := true, fftSize := 256 }
  let v3 := { v2 with dataArraySet := true }
  { w with vis := draw newId v3 }

/-- The `catch` branch of `startVisualizer`, taken when `getUserMedia`
rejects (permission denied or capture unsupported): its only statement
is `console.error("Error accessing microphone:", error)`; no ref is
touched and nothing is rethrown. It returns the unchanged world and
the line appended to the console log. -/
def startVisualizerCatch (w : VisWorld) (console : List String) (err : String) :
    VisWorld × List String :=
  (w, console ++ ["Error accessing microphone: " ++ err])

/-- The `stopVisualizer` function: if `animationIdRef.current` is
non-null, `cancelAnimationFrame` it and null the ref; if
`streamRef.current` is non-null, stop every track of that stream and
null the ref. -/
def stopVisualizer (w : VisWorld) : VisWorld :=
  let w1 :=
    match w.vis.animationId with
    | some _ => { w with vis := { w.vis with animationId := none } }
    | none => w
  match w1.vis.streamRef with
  | some s =>
      { w1 with vis := { w1.vis with streamRef := none }
                stoppedStreams := w1.stoppedStreams ++ [s] }
  | none => w1

/-!
Spec-side characterization of the transcript merge, used to state the
accumulator claims: the concatenation of the final (resp. non-final)
fragments among the results an event actually processes.
-/

/-- Concatenation of a list of strings in order. -/
def strConcat : List String → String
  | [] => ""
  | s :: rest => s ++ strConcat rest

/-- The results an `onresult` event processes: `results` from
`resultIndex` to the end. -/
def processedResults (e : ResultEvent) : List SpeechResult :=
  e.results.drop e.resultIndex

/-- Concatenation, in order, of the transcripts of the processed
results marked final. -/
def eventFinals (e : ResultEvent) : String :=
  strConcat (((processedResults e).filter (fun r => r.isFinal)).map (fun r => r.transcript))

/-- Concatenation, in order, of the transcripts of the processed
results not marked final. -/
def eventInterims (e : ResultEvent) : String :=
  strConcat (((processedResults e).filter (fun r => !r.isFinal)).map (fun r => r.transcript))

/-- User commands other than `start`: in a trace containing none of
`Action.start`, no recognition handle is ever created, hence the
engine fires no events; such traces consist of these commands only. -/
def userNonStart : Action → Bool
  | Action.stop => true
  | Action.clear => true
  | Action.setLang _ => true
  | _ => false

/-- A trace in which the engine's `onstart` was the last engine event
observed but `stopListening` ran afterwards. -/
def c2Trace : List Action :=
  [Action.start, Action.evStart, Action.stop]

/-- The trace `start; setLanguage "fr-FR"; stop; start` on a host with
recognition support. -/
def c4Trace : List Action :=
  [Action.start, Action.setLang "fr-FR", Action.stop, Action.start]

/-- A state holding a recognition handle bound to `en-US` (as created
by a first successful `startListening` from `initState`). -/
def c4StateWithHandle : AppState :=
  { initState with
      recognitionRef := some ⟨true, true, "en-US"⟩
      engineStarts := 1 }

/-- The C3 interleaving: `stopVisualizer` runs while the visualizer's
`getUserMedia` permission request is still pending (all refs still in
their initial null states), and afterwards the pending request
resolves, granting stream `0`, and the `startVisualizer` continuation
runs, scheduling animation frame `1`. -/
def c3World : VisWorld :=
  startVisualizerResume 0 1 (stopVisualizer initVisWorld)

/-- A sample `onresult` event whose processed results contain a final
fragment. -/
def c7Event : ResultEvent :=
  { resultIndex := 0
    results := [⟨true, "hello world "⟩, ⟨false, "foo"⟩] }

/-- The whole page: the main component's state, the visualizer's
world, and the console log. Only `visStartDenied` below couples them;
the visualizer has no access to the main component's error setter. -/
structure PageState where
  app : AppState
  vis : VisWorld
  console : List String
  deriving DecidableEq, Repr

/-- The page right after load: both components in their initial states
and an empty console log. -/
def page0 : PageState :=
  { app := initState, vis := initVisWorld, console := [] }

/-- The page-level effect of `startVisualizer` failing (its
`getUserMedia` promise rejecting with `err`): only the `catch` branch
runs, which logs to the console; the main component's state — in
particular its `error` value — is untouched, because the catch block's
only statement is `console.error(...)`. -/
def visStartDenied (p : PageState) (err : String) : PageState :=
  let r := startVisualizerCatch p.vis p.console err
  { p with vis := r.1, console := r.2 }

/-!
Lemmas about the transcript merge.
-/

/-- The `onresult` accumulation loop, started from arbitrary
accumulators, separates into the final-fragment concatenation and the
non-final-fragment concatenation. -/
lemma onresultFold_go (rs : List SpeechResult) :
    ∀ f i : String,
      rs.foldl
        (fun acc r =>
          if r.isFinal then (acc.1 ++ r.transcript, acc.2)
          else (acc.1, acc.2 ++ r.transcript))
        (f, i)
      = (f ++ strConcat ((rs.filter (fun r => r.isFinal)).map (fun r => r.transcript)),
         i ++ strConcat ((rs.filter (fun r => !r.isFinal)).map (fun r => r.transcript))) := by
  induction rs with
  | nil =>
      intro f i
      simp [strConcat, String.append_empty]
  | cons r rest ih =>
      intro f i
      cases hr : r.isFinal with
      | true =>
          simp [List.foldl_cons, hr, ih, strConcat, String.append_assoc]
      | false =>
          simp [List.foldl_cons, hr, ih, strConcat, String.append_assoc]

/-- Closed form of `onresultFold`. -/
lemma onresultFold_eq (rs : List SpeechResult) :
    onresultFold rs
      = (strConcat ((rs.filter (fun r => r.isFinal)).map (fun r => r.transcript)),
         strConcat ((rs.filter (fun r => !r.isFinal)).map (fun r => r.transcript))) := by
  have h := onresultFold_go rs "" ""
  simpa [onresultFold, String.empty_append] using h

/-- Closed form of the `onresult` handler: the final fragments of the
processed results are appended to `text` and the non-final fragments
replace `interimText`. -/
lemma onresult_eq (e : ResultEvent) (st : AppState) :
    onresult e st
      = { st with text := st.text ++ eventFinals e, interimText := eventInterims e } := by
  simp [onresult, onresultFold_eq, eventFinals, eventInterims, processedResults]

/-- Running an action list splits along append. -/
lemma run_append (supported : Bool) (st : AppState) (l1 l2 : List Action) :
    run supported st (l1 ++ l2) = run supported (run supported st l1) l2 := by
  simp [run, List.foldl_append]

/-- After any sequence of `onresult` events, `text` has grown by the
concatenation, in event order, of every event's final fragments. -/
lemma run_evResults_text (supported : Bool) (es : List ResultEvent) :
    ∀ st : AppState,
      (run supported st (es.map Action.evResult)).text
        = st.text ++ strConcat (es.map eventFinals) := by
  induction es with
  | nil =>
      intro st
      simp [run, strConcat, String.append_empty]
  | cons e rest ih =>
      intro st
      have h1 : run supported st ((e :: rest).map Action.evResult)
          = run supported (onresult e st) (rest.map Action.evResult) := by
        simp [run, List.foldl_cons, step]
      rw [h1, ih, onresult_eq]
      simp [strConcat, String.append_assoc]

/-!
Claim theorems.
-/

/-- C1: for every sequence of `onResult` events delivered while
listening (here `es ++ [e]`, an arbitrary nonempty event sequence,
from an arbitrary state), the finalized `text` afterwards equals its
previous value followed by the concatenation, in event order, of every
fragment marked final across all events (each event iterating its
results from `resultIndex` to the end), and `interimText` equals
exactly the concatenation of the non-final fragments of the most
recent event `e`, fully replacing any previous interim value. -/
theorem C1_transcript_merge (supported : Bool) (st : AppState)
    (es : List ResultEvent) (e : ResultEvent) :
    (run supported st ((es ++ [e]).map Action.evResult)).text
      = st.text ++ strConcat ((es ++ [e]).map eventFinals) ∧
    (run supported st ((es ++ [e]).map Action.evResult)).interimText
      = eventInterims e := by
  constructor
  · exact run_evResults_text supported (es ++ [e]) st
  · rw [List.map_append, run_append]
    have h1 : run supported (run supported st (es.map Action.evResult))
        ([e].map Action.evResult)
        = onresult e (run supported st (es.map Action.evResult)) := rfl
    rw [h1, onresult_eq]

/-- C6: `handleClear` resets `text`, `interimText` and `error` to
empty independent of the listening state, and changes nothing else: it
leaves `isListening`, the recognition handle, the language, and the
counters of engine start/stop requests unchanged (in particular it
issues no `recognition.stop()`, so it does not stop an active
session). -/
theorem C6_clear_frame (st : AppState) :
    handleClear st = { st with text := "", interimText := "", error := "" } ∧
    (handleClear st).isListening = st.isListening ∧
    (handleClear st).recognitionRef = st.recognitionRef ∧
    (handleClear st).language = st.language ∧
    (handleClear st).engineStarts = st.engineStarts ∧
    (handleClear st).engineStops = st.engineStops :=
  ⟨rfl, rfl, rfl, rfl, rfl, rfl⟩

/-- C7: the transcript merge is non-idempotent per call: for every
state and every `onresult` event whose processed results contain at
least one final fragment, delivering the same event twice appends the
event's final fragments twice to the finalized text. -/
theorem C7_double_append (st : AppState) (e : ResultEvent)
    (_hfin : (processedResults e).any (fun r => r.isFinal) = true) :
    (onresult e (onresult e st)).text
      = st.text ++ eventFinals e ++ eventFinals e := by
  rw [onresult_eq, onresult_eq]

/-- Witness for C7 at a concrete state and event. -/
theorem C7_double_append_witness :
    (processedResults c7Event).any (fun r => r.isFinal) = true ∧
    (onresult c7Event (onresult c7Event initState)).text
      = initState.text ++ eventFinals c7Event ++ eventFinals c7Event :=
  ⟨by decide, C7_double_append initState c7Event (by decide)⟩

/-- C10: for every state (in particular any state in which a session
was started), `stopListening` discards the current `interimText`
(sets it to empty) while leaving the finalized `text` and the `error`
message unchanged — an in-progress interim fragment is never promoted
into the finalized transcript by stopping. -/
theorem C10_stop_frame (st : AppState) :
    (stopListening st).interimText = "" ∧
    (stopListening st).text = st.text ∧
    (stopListening st).error = st.error := by
  cases h : st.recognitionRef <;> simp [stopListening, h]

/-- C2 counterexample: in the trace `start; onstart; stop()` the last
`onStart`/`onEnd` event observed from the engine dictates a listening
flag of `true`, yet the reachable state has `isListening = false`,
because `stopListening` sets the flag from the caller's optimistic
assumption instead of waiting for `onEnd`. -/
theorem C2_counterexample :
    lastListenDictate c2Trace = some true ∧
    (run true initState c2Trace).isListening = false :=
  ⟨rfl, rfl⟩

/-- C2 (amended): `isListening` is set to `true` only by the `onStart`
event (a `start()` call never changes it), and `onEnd` transitions it
to `false` unconditionally, whether it followed an explicit `stop()`
or an engine-internal termination; however `stopListening` also sets
the flag to `false` directly, so between a `stop()` call and the
engine's subsequent `onEnd` the flag can disagree with the last
`onStart`/`onEnd` observed. No other handler touches the flag. -/
theorem C2_listening_transitions (supported : Bool) (st : AppState)
    (e : ResultEvent) (c : String) :
    (onstart st).isListening = true ∧
    (onend st).isListening = false ∧
    (stopListening st).isListening = false ∧
    (startListening supported st).isListening = st.isListening ∧
    (onerror c st).isListening = st.isListening ∧
    (onresult e st).isListening = st.isListening ∧
    (handleClear st).isListening = st.isListening ∧
    (setLanguage c st).isListening = st.isListening := by
  refine ⟨rfl, rfl, rfl, ?_, rfl, rfl, rfl, rfl⟩
  cases h : st.recognitionRef with
  | some r => simp [startListening, initializeRecognition, h]
  | none => cases supported <;> simp [startListening, initializeRecognition, h]

/-- C4 counterexample: after `start(); setLanguage("fr-FR"); stop();
start()` on a supporting host, the configured language is `fr-FR` but
the handle active after the second `start()` is still bound to
`en-US`: `stopListening` never clears `recognitionRef`, so the second
`start()` reuses the handle created by the first. -/
theorem C4_counterexample :
    (run true initState c4Trace).language = "fr-FR" ∧
    ((run true initState c4Trace).recognitionRef).map RecognitionHandle.lang
      = some "en-US" ∧
    ((run true initState c4Trace).recognitionRef).map RecognitionHandle.lang
      ≠ some ((run true initState c4Trace).language) := by
  refine ⟨rfl, rfl, by decide⟩

/-- C4 (amended): `setLanguage` sets the locale used by the next
created recognition handle and has no effect on an already-active
handle; but the handle is not destroyed by `stopListening`
(`recognitionRef` keeps its value), so when a handle already exists
the sequence `setLanguage(tag); stop(); start()` leaves exactly that
handle active, still bound to the language it was created with; the
new tag is only picked up when no handle exists yet at `start()`. -/
theorem C4_language_binding (supported : Bool) (tag : String) (st : AppState) :
    (st.recognitionRef = none → supported = true →
      (startListening supported (setLanguage tag st)).recognitionRef
        = some ⟨true, true, tag⟩) ∧
    (∀ h : RecognitionHandle, st.recognitionRef = some h →
      (startListening supported (stopListening (setLanguage tag st))).recognitionRef
        = some h) := by
  constructor
  · intro h1 h2
    subst h2
    simp [startListening, initializeRecognition, setLanguage, h1]
  · intro h hh
    simp [startListening, initializeRecognition, stopListening, setLanguage, hh]

/-- Witness for C4 (amended) at concrete states: a fresh state picks
up the new tag, while a state already holding the `en-US` handle keeps
it across `setLanguage "fr-FR"; stop(); start()`. -/
theorem C4_language_binding_witness :
    (startListening true (setLanguage "fr-FR" initState)).recognitionRef
      = some ⟨true, true, "fr-FR"⟩ ∧
    (startListening true (stopListening (setLanguage "fr-FR" c4StateWithHandle))).recognitionRef
      = some ⟨true, true, "en-US"⟩ :=
  ⟨(C4_language_binding true "fr-FR" initState).1 rfl rfl,
   (C4_language_binding true "fr-FR" c4StateWithHandle).2 ⟨true, true, "en-US"⟩ rfl⟩

/-- On a host without recognition support, no action ever creates a
handle or issues an engine start request. -/
lemma unsupported_run_inv (acts : List Action) :
    ∀ st : AppState, st.recognitionRef = none →
      (run false st acts).recognitionRef = none ∧
      (run false st acts).engineStarts = st.engineStarts := by
  induction acts with
  | nil =>
      intro st h
      exact ⟨h, rfl⟩
  | cons a rest ih =>
      intro st h
      have hs : (step false st a).recognitionRef = none ∧
          (step false st a).engineStarts = st.engineStarts := by
        cases a <;>
          simp [step, startListening, stopListening, handleClear, setLanguage,
            onstart, onend, onerror, onresult, initializeRecognition, h]
      have h2 := ih (step false st a) hs.1
      have hr : run false st (a :: rest) = run false (step false st a) rest := rfl
      rw [hr, h2.2] at *
      exact ⟨h2.1, hs.2⟩

/-- C8: if no speech-recognition capability exists on the host, then
after any sequence of actions no recognition handle exists and no
engine start request was ever issued, and a further `startListening`
records the unsupported-platform error message in the observable
`error` state, still creates no handle, and still issues no engine
start — the feature stays disabled for the session's lifetime. -/
theorem C8_unsupported_terminal (acts : List Action) :
    (run false initState acts).recognitionRef = none ∧
    (run false initState acts).engineStarts = 0 ∧
    (startListening false (run false initState acts)).error
      = "Your browser does not support Speech Recognition." ∧
    (startListening false (run false initState acts)).recognitionRef = none ∧
    (startListening false (run false initState acts)).engineStarts = 0 := by
  have h := unsupported_run_inv acts initState rfl
  have h0 : (run false initState acts).engineStarts = 0 := h.2
  refine ⟨h.1, h0, ?_, ?_, ?_⟩ <;>
    simp [startListening, initializeRecognition, h.1, h0]

/-- In a trace of user commands that never starts a session, the
handle stays absent, the listening flag stays false and the interim
text stays empty. -/
lemma no_start_run_inv (supported : Bool) (acts : List Action) :
    ∀ st : AppState, (∀ a ∈ acts, userNonStart a = true) →
      st.recognitionRef = none → st.isListening = false → st.interimText = "" →
      (run supported st acts).recognitionRef = none ∧
      (run supported st acts).isListening = false ∧
      (run supported st acts).interimText = "" := by
  induction acts with
  | nil =>
      intro st _ h1 h2 h3
      exact ⟨h1, h2, h3⟩
  | cons a rest ih =>
      intro st hall h1 h2 h3
      have ha : userNonStart a = true := hall a (List.mem_cons_self a rest)
      have hrest : ∀ b ∈ rest, userNonStart b = true :=
        fun b hb => hall b (List.mem_cons_of_mem a hb)
      have hr : run supported st (a :: rest) = run supported (step supported st a) rest := rfl
      rw [hr]
      cases a with
      | stop =>
          exact ih (stopListening st) hrest (by simp [stopListening, h1])
            (by simp [stopListening]) (by simp [stopListening])
      | clear =>
          exact ih (handleClear st) hrest (by simp [handleClear, h1])
            (by simp [handleClear, h2]) (by simp [handleClear])
      | setLang t =>
          exact ih (setLanguage t st) hrest (by simp [setLanguage, h1])
            (by simp [setLanguage, h2]) (by simp [setLanguage, h3])
      | start => simp [userNonStart] at ha
      | evStart => simp [userNonStart] at ha
      | evEnd => simp [userNonStart] at ha
      | evError c => simp [userNonStart] at ha
      | evResult e => simp [userNonStart] at ha

/-- In a state with no handle, no listening flag and no interim text,
`stopListening` is the identity. -/
lemma stopListening_idle (st : AppState) (h1 : st.recognitionRef = none)
    (h2 : st.isListening = false) (h3 : st.interimText = "") :
    stopListening st = st := by
  cases st with
  | mk isL t it er cp dm lg rr es eo =>
      simp only at h1 h2 h3
      subst h1 h2 h3
      rfl

/-- C9: calling `stopListening` when `start` was never issued (a trace
of user commands without `start`, under which no handle exists and the
engine fired no events) is a no-op: the resulting state — finalized
text, interim text, error, `isListening`, and even the engine
request counters (no `recognition.stop()` is issued) — is exactly the
state before the call, and no failure is raised (the handler is a
total function). -/
theorem C9_stop_noop (supported : Bool) (acts : List Action)
    (h : ∀ a ∈ acts, userNonStart a = true) :
    stopListening (run supported initState acts) = run supported initState acts := by
  obtain ⟨h1, h2, h3⟩ := no_start_run_inv supported acts initState h rfl rfl rfl
  exact stopListening_idle _ h1 h2 h3

/-- Witness for C9 on the concrete trace `stop(); clear()`. -/
theorem C9_stop_noop_witness :
    stopListening (run true initState [Action.stop, Action.clear])
      = run true initState [Action.stop, Action.clear] :=
  C9_stop_noop true [Action.stop, Action.clear] (by decide)

/-- C3 (failing input): in the interleaving where `stopVisualizer`
runs while the permission request of `startVisualizer` is still
pending and the request then resolves, granting stream `0`, the
granted stream is installed in `streamRef` with its tracks never
stopped, and a redraw frame is scheduled — the code leaves the stream
running instead of tearing it down as the claim (and the spec's
cancellation requirement) demand. -/
theorem C3_stop_during_pending_leak :
    c3World.vis.streamRef = some 0 ∧
    c3World.stoppedStreams = [] ∧
    c3World.vis.animationId = some 1 :=
  ⟨rfl, rfl, rfl⟩

/-- C5 counterexample: when the visualizer's permission request is
denied on the freshly loaded page, the observable error state stays
empty — no error message is recorded there, contrary to the claim —
while the pipeline does stay idle (no stream, no scheduled redraw). -/
theorem C5_counterexample :
    (visStartDenied page0 "NotAllowedError").app.error = "" ∧
    (visStartDenied page0 "NotAllowedError").vis.vis.streamRef = none ∧
    (visStartDenied page0 "NotAllowedError").vis.vis.animationId = none :=
  ⟨rfl, rfl, rfl⟩

/-- C5 (amended): when the visualizer's `start()` fails because
audio-capture permission is denied or the platform lacks capture
support, the failure is caught (no unhandled failure: the handler is a
total function), the message is only logged to the console, the
visualizer's refs are left exactly as they were — in particular, when
start was the first visualizer action, Idle with no live stream and no
scheduled redraw — and the main component's observable `error` state
is not modified. -/
theorem C5_denied_logs_only (p : PageState) (err : String) :
    (visStartDenied p err).app = p.app ∧
    (visStartDenied p err).vis = p.vis ∧
    (visStartDenied p err).console
      = p.console ++ ["Error accessing microphone: " ++ err] :=
  ⟨rfl, rfl, rfl⟩

end STT
